import Mathlib

/-!
# cluf.h: field, error and failure-pair macros over the Lua C API

`cluf.h` is a header of preprocessor macros.  Each macro is embedded as the
function obtained by expanding it: a statement of the enclosing native
function becomes a map from the interpreter state to an `Outcome`, which
records whether control falls through to the next statement, the enclosing
function returns, or the host performs a non-local exit.

The host API (`lua.h`, `lauxlib.h`) is not part of the repository; the spec
names its operations and leaves their behaviour to the host.  Every definition
that stands for a piece of the host is marked `Modelled from the spec:` and
follows the Lua reference manual (5.1 to 5.4), for the fragment the macros
reach: the value stack of the running native function, tables with their
metatables, and the registry and globals tables.

Limits of the model, stated once:
* memory allocation succeeds and the stack has room for the pushes (callers
  of the C API are responsible for `lua_checkstack`);
* a metamethod that is a function is not run: the outcome `metacall` records
  the handler and its arguments and stops there;
* C integers have the widths of an LP64 host: an argument given to a
  parameter of type `int` is reduced to 32 bits, one given to a `lua_Integer`
  to 64 bits; a `const char *` argument may be NULL, and so may the function
  pointer of a `luaL_Reg`;
* `Value.integer` holds a number of integral value: a `lua_Integer` from 5.3
  on, a `lua_Number` (a double) of that value before, so that under 5.1 and 5.2
  `lua_pushinteger` rounds to the nearest double; a `lua_Number` pushed by
  `lua_pushnumber` is held by its bit pattern.  Raw key equality is structural,
  so number keys are assumed normalised (one of integral value is an
  `integer`); no macro here pushes a `lua_Number` as a key.
-/

namespace Cluf

/-! ## Values, tables, state -/

/-- Modelled from the spec: the values of the host VM (lua.h is not in the
repository).  Tables, functions, full userdata and threads are references. -/
inductive Value
  | nil
  | boolean (b : Bool)
  | lightuserdata (p : Nat)
  | integer (n : Int)
  | number (bits : Nat)
  | string (s : String)
  | table (ref : Nat)
  | function (f : Nat)
  | userdata (ref : Nat)
  | thread (ref : Nat)
deriving DecidableEq

/-- Modelled from the spec: a table object of the host, with its entries (no
entry means the key maps to nil) and its metatable, itself a table reference. -/
structure Table where
  entries : List (Value × Value)
  metatable : Option Nat
deriving DecidableEq

/-- Modelled from the spec: the state handle `lua_State` (lua.h), for the
part of the interpreter state the macros can reach.  `stack` is the
frame of the running native function, top first.  `tables` is the heap of table
objects, a `Value.table r` naming `tables[r]`.  `udata` gives the metatable of
each full userdata, `mt` the per-type metatables of the other basic types
(indexed by type tag).  `l_registry` and `l_gt` are the registry and the globals
table.  `LUA_VERSION_NUM` is the version of the host the header is compiled
against.  `errno` is the C library's error number, carried along because
`luf_failnil` and `luf_failboolean` read it.  `callerPosition` is what the call
stack contributes to the messages of `luaL_error`: the text
`chunkname:currentline: ` when the function that called the running native
function is a Lua function, the empty string otherwise. -/
structure lua_State where
  stack : List Value
  tables : List Table
  udata : List (Option Nat)
  mt : List (Option Nat)
  l_registry : Nat
  l_gt : Nat
  LUA_VERSION_NUM : Nat
  errno : Int
  callerPosition : String
deriving DecidableEq

/-- What executing a statement of a native function leads to. -/
inductive Outcome
  /-- Control reaches the statement that follows, in state `L`. -/
  | next (L : lua_State)
  /-- The enclosing native function executes `return n;`. -/
  | ret (n : Int) (L : lua_State)
  /-- The host raises the error object `e` (a long jump); `L` is the state in
  which the host found the error, before it pushes a message of its own. -/
  | raise (e : Value) (L : lua_State)
  /-- The host calls the metamethod `h` on `args`; what follows depends on that
  function and is not modelled. -/
  | metacall (h : Value) (args : List Value) (L : lua_State)
  /-- The API was used outside its contract (an index that names no slot, a
  reference to no object). -/
  | undefined
deriving DecidableEq

/-- Sequencing of statements: the second runs only when the first falls
through. -/
def Outcome.andThen (o : Outcome) (f : lua_State → Outcome) : Outcome :=
  match o with
  | .next L => f L
  | other => other

/-! ## Host API: stack -/

/-- Modelled from the spec: `lua_pushnil` (lua.h, absent from the repository)
pushes a nil value. -/
def lua_pushnil (L : lua_State) : lua_State :=
  { L with stack := Value.nil :: L.stack }

/-- Conversion of an integer argument to the C type `int` (32 bits, two's
complement). -/
def toCInt (v : Int) : Int := (v + 2 ^ 31) % 2 ^ 32 - 2 ^ 31

/-- Conversion of an integer argument to the type `lua_Integer` (64 bits,
two's complement: `long long` from 5.3 on, `ptrdiff_t` of an LP64 host
before). -/
def toLuaInteger (n : Int) : Int := (n + 2 ^ 63) % 2 ^ 64 - 2 ^ 63

/-- Modelled from the spec: `lua_pushboolean` (lua.h) takes a C `int`, to
which the argument `b` is converted, and pushes the boolean `b != 0`. -/
def lua_pushboolean (L : lua_State) (b : Int) : lua_State :=
  { L with stack := Value.boolean (toCInt b != 0) :: L.stack }

/-- The number of bits by which the binary representation of `a`, below
`2 ^ 64`, exceeds the 53 bits of the significand of a double. -/
def excessBits (a : Nat) : Nat :=
  ((List.range 11).filter (fun i => decide (2 ^ (53 + i) ≤ a))).length

/-- Modelled from the spec: `cast_num` of the host, the conversion of a
`lua_Integer` to a `lua_Number` (an IEEE 754 double): the nearest double, a tie
going to the even significand.  The double has an integral value, by which it
is given. -/
def cast_num (n : Int) : Int :=
  let a := n.natAbs
  let e := excessBits a
  let q := a / 2 ^ e
  let r := a % 2 ^ e
  let q1 := if 2 ^ e < 2 * r ∨ (2 ^ e = 2 * r ∧ q % 2 = 1) then q + 1 else q
  if n < 0 then -((q1 * 2 ^ e : Nat) : Int) else ((q1 * 2 ^ e : Nat) : Int)

/-- The integral value `lua_pushinteger` of a host of version `ver` pushes for
the argument `n`: the argument converted to `lua_Integer`, and before 5.3, where
every number is a `lua_Number`, converted on to that type. -/
def pushedInteger (ver : Nat) (n : Int) : Int :=
  if ver < 503 then cast_num (toLuaInteger n) else toLuaInteger n

/-- Modelled from the spec: `lua_pushinteger` (lua.h) takes a `lua_Integer`,
to which the argument `n` is converted, and pushes it: as an integer from 5.3
on, as the `lua_Number` of `cast_num` before. -/
def lua_pushinteger (L : lua_State) (n : Int) : lua_State :=
  { L with stack := Value.integer (pushedInteger L.LUA_VERSION_NUM n) :: L.stack }

/-- Modelled from the spec: `lua_pushnumber` (lua.h) pushes the number, a
64-bit pattern. -/
def lua_pushnumber (L : lua_State) (bits : Nat) : lua_State :=
  { L with stack := Value.number (bits % 2 ^ 64) :: L.stack }

/-- Modelled from the spec: `lua_pushstring` (lua.h) pushes a copy of the
zero-terminated string; for a NULL pointer (`none`) it pushes nil. -/
def lua_pushstring (L : lua_State) (s : Option String) : lua_State :=
  match s with
  | some str => { L with stack := Value.string str :: L.stack }
  | none => { L with stack := Value.nil :: L.stack }

/-- Modelled from the spec: pseudo-index of the registry
(`LUA_REGISTRYINDEX` of lua.h): -10000 under 5.1, `-LUAI_MAXSTACK - 1000` from
5.2 on. -/
def LUA_REGISTRYINDEX (L : lua_State) : Int :=
  if L.LUA_VERSION_NUM < 502 then -10000 else -1001000

/-- Modelled from the spec: pseudo-index of the globals table
(`LUA_GLOBALSINDEX` of lua.h, 5.1 only). -/
def LUA_GLOBALSINDEX : Int := -10002

/-- Modelled from the spec: `index2adr` of the host resolves a stack index.
A positive index counts from the bottom of the frame, a negative one from the
top; the registry and (5.1) the globals table have pseudo-indices.  `none` for
an index naming no slot; upvalue pseudo-indices are not modelled. -/
def index2adr (L : lua_State) (idx : Int) : Option Value :=
  if 0 < idx then L.stack.reverse[(idx - 1).toNat]?
  else if idx = 0 then none
  else if LUA_REGISTRYINDEX L < idx then L.stack[(-idx - 1).toNat]?
  else if idx = LUA_REGISTRYINDEX L then some (Value.table L.l_registry)
  else if L.LUA_VERSION_NUM < 502 ∧ idx = LUA_GLOBALSINDEX then some (Value.table L.l_gt)
  else none

/-! ## Host API: tables and metatables -/

/-- Modelled from the spec: raw read of a table (`luaH_get` of the host): the
value of the entry, nil without one. -/
def luaH_get (es : List (Value × Value)) (key : Value) : Value :=
  (es.lookup key).getD Value.nil

/-- Modelled from the spec: raw write of a table (the host finds or creates
the slot of the key and stores the value): a nil value
removes the entry, a key already present has its value replaced, a new key
gets a new entry. -/
def luaH_set (es : List (Value × Value)) (key val : Value) : List (Value × Value) :=
  if val = Value.nil then es.filter (fun e => e.1 ≠ key)
  else if key ∈ es.map Prod.fst then es.map (fun e => if e.1 = key then (key, val) else e)
  else es ++ [(key, val)]

/-- Modelled from the spec: type tag of a value (`LUA_TNIL` .. `LUA_TTHREAD`
of lua.h). -/
def ttype : Value → Nat
  | .nil => 0
  | .boolean _ => 1
  | .lightuserdata _ => 2
  | .integer _ => 3
  | .number _ => 3
  | .string _ => 4
  | .table _ => 5
  | .function _ => 6
  | .userdata _ => 7
  | .thread _ => 8

/-- Modelled from the spec: names of the basic types (`luaT_typenames` of the
host). -/
def luaT_typenames : Value → String
  | .nil => "nil"
  | .boolean _ => "boolean"
  | .lightuserdata _ => "userdata"
  | .integer _ => "number"
  | .number _ => "number"
  | .string _ => "string"
  | .table _ => "table"
  | .function _ => "function"
  | .userdata _ => "userdata"
  | .thread _ => "thread"

/-- Modelled from the spec: metatable of a value in the host: its own for a
table or a full userdata, the one of its type otherwise. -/
def getmetatable (L : lua_State) (o : Value) : Option Nat :=
  match o with
  | .table r => (L.tables[r]?).bind Table.metatable
  | .userdata u => (L.udata[u]?).join
  | _ => (L.mt[ttype o]?).join

/-- Modelled from the spec: metamethod of a value for an event
(`luaT_gettmbyobj` of the host): the raw field
`event` of its metatable, nil without a metatable. -/
def luaT_gettmbyobj (L : lua_State) (o : Value) (event : String) : Value :=
  match getmetatable L o with
  | none => Value.nil
  | some m =>
    match L.tables[m]? with
    | none => Value.nil
    | some M => luaH_get M.entries (Value.string event)

/-- Modelled from the spec: name of a value's type in the host's error
messages (`luaT_objtypename`): from 5.3
on, a string field `__name` of the metatable of a table or full userdata takes
precedence over the basic name. -/
def luaT_objtypename (L : lua_State) (o : Value) : String :=
  match o with
  | .table _ | .userdata _ =>
    if 503 ≤ L.LUA_VERSION_NUM then
      match luaT_gettmbyobj L o "__name" with
      | .string s => s
      | _ => luaT_typenames o
    else luaT_typenames o
  | _ => luaT_typenames o

/-- Modelled from the spec: `luaG_typeerror` raises "attempt to index a T
value"; inside a native function the message carries no position or variable
information. -/
def luaG_typeerror (L : lua_State) (o : Value) (op : String) : Outcome :=
  Outcome.raise (Value.string ("attempt to " ++ op ++ " a " ++ luaT_objtypename L o ++ " value")) L

/-- Modelled from the spec: the host's bound on the length of a metamethod
chain (`MAXTAGLOOP`): 100 up to 5.2, 2000 from 5.3 on. -/
def MAXTAGLOOP (L : lua_State) : Nat :=
  if L.LUA_VERSION_NUM < 503 then 100 else 2000

/-- Modelled from the spec: the host's test `luai_numisnan`, on the bit
pattern of a `lua_Number` (exponent all ones, mantissa not zero). -/
def luai_numisnan (bits : Nat) : Bool :=
  (bits / 2 ^ 52) % 2 ^ 11 == 2047 && bits % 2 ^ 52 != 0

/-- Modelled from the spec: a key that cannot start a new entry in the host
(`luaH_newkey`): nil, or a number that is a NaN; the message of the error it
raises. -/
def badkey : Value → Option String
  | .nil => some "table index is nil"
  | .number bits => if luai_numisnan bits then some "table index is NaN" else none
  | _ => none

/-- Modelled from the spec: the raw store at the end of the host's
`luaV_settable`, on table `r` with contents `T`.  A key that is nil or NaN has
a slot in no table, so claiming one is an error. -/
def rawstore (L : lua_State) (r : Nat) (T : Table) (key val : Value) : Outcome :=
  match badkey key with
  | some msg => Outcome.raise (Value.string msg) L
  | none =>
    Outcome.next { L with tables := L.tables.set r { T with entries := luaH_set T.entries key val } }

/-- Modelled from the spec: message of the host's error when a `__newindex`
chain is too long. -/
def settable_loop_message (L : lua_State) : String :=
  if L.LUA_VERSION_NUM < 503 then "loop in settable"
  else if L.LUA_VERSION_NUM < 504 then "settable chain too long; possible loop"
  else "'__newindex' chain too long; possible loop"

/-- Modelled from the spec: `luaV_settable` of the host, the assignment
`t[key] = val` with metamethods.  On a table, an entry with a non-nil value, or
the absence of a `__newindex` metamethod, leads to the raw store; on another
value the absence of the metamethod is a type error.  A metamethod that is a
function is called with `(t, key, val)`; one that is not becomes the target of
the assignment, for at most `MAXTAGLOOP` rounds.  Under 5.1 the slot of a new
key is claimed before the metamethod is looked up, so a nil or NaN key on a
table is an error even with a `__newindex`. -/
def luaV_settable (L : lua_State) : Nat → Value → Value → Value → Outcome
  | 0, _, _, _ => Outcome.raise (Value.string (settable_loop_message L)) L
  | fuel + 1, t, key, val =>
    match t with
    | .table r =>
      match L.tables[r]? with
      | none => Outcome.undefined
      | some T =>
        let tm := luaT_gettmbyobj L t "__newindex"
        if luaH_get T.entries key ≠ Value.nil ∨ tm = Value.nil then rawstore L r T key val
        else
          match (if L.LUA_VERSION_NUM < 502 then badkey key else none) with
          | some msg => Outcome.raise (Value.string msg) L
          | none =>
            match tm with
            | .function _ => Outcome.metacall tm [t, key, val] L
            | _ => luaV_settable L fuel tm key val
    | _ =>
      let tm := luaT_gettmbyobj L t "__newindex"
      if tm = Value.nil then luaG_typeerror L t "index"
      else
        match tm with
        | .function _ => Outcome.metacall tm [t, key, val] L
        | _ => luaV_settable L fuel tm key val

/-- Modelled from the spec: `lua_settable(L, idx)` (lua.h) performs
`t[k] = v`, where `t` is the value at `idx`, `v` the value on top of the stack
and `k` the value just below it, and pops both; it may trigger a metamethod for
the "newindex" event. -/
def lua_settable (L : lua_State) (idx : Int) : Outcome :=
  match index2adr L idx, L.stack with
  | some t, val :: key :: rest =>
    (luaV_settable L (MAXTAGLOOP L) t key val).andThen
      (fun L1 => Outcome.next { L1 with stack := rest })
  | _, _ => Outcome.undefined

/-- Modelled from the spec: `lua_error` (lua.h) raises an error with the value
on top of the stack as the error object; it does a long jump and never
returns. -/
def lua_error (L : lua_State) : Outcome :=
  match L.stack with
  | e :: _ => Outcome.raise e L
  | [] => Outcome.undefined

/-! ## Host API: what module registration uses -/

/-- Modelled from the spec: an entry of a `luaL_Reg` array (lauxlib.h) before
its `{NULL, NULL}` sentinel: a name and a native function pointer, 0 standing
for a NULL pointer. -/
abbrev luaL_Reg := String × Nat

/-- The macro `luf_fpush(L,kt,k,vt,v)`:
`lua_push ## kt((L),(k)); lua_push ## vt((L),(v)); lua_settable((L),(-3));`.
The two pasted names are the arguments `lua_pushkt` and `lua_pushvt`. -/
def luf_fpush {κ ν : Type} (L : lua_State) (lua_pushkt : lua_State → κ → lua_State) (k : κ)
    (lua_pushvt : lua_State → ν → lua_State) (v : ν) : Outcome :=
  let L1 := lua_pushkt L k
  let L2 := lua_pushvt L1 v
  lua_settable L2 (-3)

/-- The macro `luf_fpush_sb`: string key, boolean value. -/
def luf_fpush_sb (L : lua_State) (k : Option String) (v : Int) : Outcome :=
  luf_fpush L lua_pushstring k lua_pushboolean v

/-- The macro `luf_fpush_si`: string key, integer value. -/
def luf_fpush_si (L : lua_State) (k : Option String) (v : Int) : Outcome :=
  luf_fpush L lua_pushstring k lua_pushinteger v

/-- The macro `luf_fpush_sn`: string key, number value. -/
def luf_fpush_sn (L : lua_State) (k : Option String) (v : Nat) : Outcome :=
  luf_fpush L lua_pushstring k lua_pushnumber v

/-- The macro `luf_fpush_ss`: string key, string value. -/
def luf_fpush_ss (L : lua_State) (k : Option String) (v : Option String) : Outcome :=
  luf_fpush L lua_pushstring k lua_pushstring v

/-- The macro `luf_fpush_in`: integer key, number value. -/
def luf_fpush_in (L : lua_State) (k : Int) (v : Nat) : Outcome :=
  luf_fpush L lua_pushinteger k lua_pushnumber v

/-- The macro `luf_fpush_ii`: integer key, integer value. -/
def luf_fpush_ii (L : lua_State) (k : Int) (v : Int) : Outcome :=
  luf_fpush L lua_pushinteger k lua_pushinteger v

/-- The macro `luf_fpush_is`: integer key, string value. -/
def luf_fpush_is (L : lua_State) (k : Int) (v : Option String) : Outcome :=
  luf_fpush L lua_pushinteger k lua_pushstring v

/-- The macro `luf_fpush_ib`: integer key, boolean value. -/
def luf_fpush_ib (L : lua_State) (k : Int) (v : Int) : Outcome :=
  luf_fpush L lua_pushinteger k lua_pushboolean v

/-- The macro `luf_error(L,requisite,message)`:
`if ((requisite)) { lua_pushstring((L),(message)); lua_error(L); return 0; }`. -/
def luf_error (L : lua_State) (requisite : Int) (message : Option String) : Outcome :=
  if requisite ≠ 0 then
    let L1 := lua_pushstring L message
    (lua_error L1).andThen (fun L2 => Outcome.ret 0 L2)
  else Outcome.next L

/-- The macro `luf_failnil_m(L,t,m)`:
`if ((t)) { lua_pushnil((L)); lua_pushstring((L),(const char *)(m)); return 2; }`. -/
def luf_failnil_m (L : lua_State) (t : Int) (m : lua_State → Option String) : Outcome :=
  if t ≠ 0 then
    let L1 := lua_pushnil L
    let L2 := lua_pushstring L1 (m L1)
    Outcome.ret 2 L2
  else Outcome.next L

/-- The macro `luf_failboolean_m(L,t,m)`:
`if ((t)) { lua_pushboolean(L,0); lua_pushstring((L),(const char *)(m)); return 2; }`. -/
def luf_failboolean_m (L : lua_State) (t : Int) (m : lua_State → Option String) : Outcome :=
  if t ≠ 0 then
    let L1 := lua_pushboolean L 0
    let L2 := lua_pushstring L1 (m L1)
    Outcome.ret 2 L2
  else Outcome.next L

/-- The macro `luf_failnil(L,t)`: `luf_failnil_m(L,t,strerror(errno))`.
`strerror` is the C library's (string.h); it returns a pointer to a message
string for every error number. -/
def luf_failnil (strerror : Int → String) (L : lua_State) (t : Int) : Outcome :=
  luf_failnil_m L t (fun L1 => some (strerror L1.errno))

/-- The macro `luf_failboolean(L,t)`: `luf_failboolean_m(L,t,strerror(errno))`. -/
def luf_failboolean (strerror : Int → String) (L : lua_State) (t : Int) : Outcome :=
  luf_failboolean_m L t (fun L1 => some (strerror L1.errno))

/-- The convenience variant as the spec words it: the failure pair whose
message is the platform error string of the error number recorded when the
macro starts. -/
def luf_failnil_spec (strerror : Int → String) (L : lua_State) (t : Int) : Outcome :=
  luf_failnil_m L t (fun _ => some (strerror L.errno))

/-- The boolean convenience variant as the spec words it. -/
def luf_failboolean_spec (strerror : Int → String) (L : lua_State) (t : Int) : Outcome :=
  luf_failboolean_m L t (fun _ => some (strerror L.errno))

/-- A small interpreter state: one table on top of one integer. -/
def sampleState : lua_State :=
  { stack := [Value.table 0, Value.integer 7]
    tables := [{ entries := [(Value.string "a", Value.integer 1)], metatable := none }]
    udata := []
    mt := []
    l_registry := 0
    l_gt := 0
    LUA_VERSION_NUM := 503
    errno := 2
    callerPosition := "" }

/-- One of the eight field macros applied to arguments of its types: the Lua
key and value its two pushes produce, and the macro call itself. -/
structure FieldCall where
  key : Value
  val : Value
  run : lua_State → Outcome

/-- The Lua value a C string argument stands for: the string, or nil for a
NULL pointer. -/
def stringValue : Option String → Value
  | some s => Value.string s
  | none => Value.nil

/-- The eight field macros, applied under a host of version `ver` to a string
key `ks` or an integer key `ki` and to a boolean `vb`, integer `vi`, number `vn`
or string `vs`; a string argument may be a NULL pointer (`none`), an integer
argument is any integer the C expression may have as its value. -/
def fieldCalls (ver : Nat) (ks : Option String) (ki : Int) (vb vi : Int) (vn : Nat)
    (vs : Option String) : List FieldCall :=
  [ ⟨stringValue ks, Value.boolean (toCInt vb != 0), fun L => luf_fpush_sb L ks vb⟩,
    ⟨stringValue ks, Value.integer (pushedInteger ver vi), fun L => luf_fpush_si L ks vi⟩,
    ⟨stringValue ks, Value.number (vn % 2 ^ 64), fun L => luf_fpush_sn L ks vn⟩,
    ⟨stringValue ks, stringValue vs, fun L => luf_fpush_ss L ks vs⟩,
    ⟨Value.integer (pushedInteger ver ki), Value.number (vn % 2 ^ 64),
      fun L => luf_fpush_in L ki vn⟩,
    ⟨Value.integer (pushedInteger ver ki), Value.integer (pushedInteger ver vi),
      fun L => luf_fpush_ii L ki vi⟩,
    ⟨Value.integer (pushedInteger ver ki), stringValue vs, fun L => luf_fpush_is L ki vs⟩,
    ⟨Value.integer (pushedInteger ver ki), Value.boolean (toCInt vb != 0),
      fun L => luf_fpush_ib L ki vb⟩ ]

/-- The value the registration loop of a host of version `ver` stores for the
function pointer `f`: the function, or false for a NULL pointer from 5.4 on. -/
def regValue (ver : Nat) (f : Nat) : Value :=
  if 504 ≤ ver ∧ f = 0 then Value.boolean false else Value.function f

/-- The entries of a table after the functions of a list have been assigned
raw, in order, by a host of version `ver`. -/
def registered (ver : Nat) (es : List (Value × Value)) (l : List luaL_Reg) :
    List (Value × Value) :=
  l.foldl (fun acc e => luaH_set acc (Value.string e.1) (regValue ver e.2)) es

/-- The function a list binds to a name: the one of its last entry with that
name. -/
def lastFunc (l : List luaL_Reg) (name : String) : Option Nat :=
  l.reverse.lookup name

/-- Raw assignment `tables[r][k] = v` in the heap of tables; a reference to no
table changes nothing. -/
def rawsetField (tables : List Table) (r : Nat) (k v : Value) : List Table :=
  match tables[r]? with
  | some T => tables.set r { T with entries := luaH_set T.entries k v }
  | none => tables

/-- Raw read `tables[r][k]` in the heap of tables; nil for a reference to no
table. -/
def rawgetField (tables : List Table) (r : Nat) (k : Value) : Value :=
  match tables[r]? with
  | some T => luaH_get T.entries k
  | none => Value.nil

/-- The heap after the functions of a list have been assigned raw, in order,
to the fields of table `m` that their names give, by a host of version `ver`. -/
def registerAll (ver : Nat) (tables : List Table) (m : Nat) : List luaL_Reg → List Table
  | [] => tables
  | e :: l =>
    registerAll ver (rawsetField tables m (Value.string e.1) (regValue ver e.2)) m l

/-- Where a dotted name leads, read raw part by part from a table. -/
inductive PathEnd
  /-- Every part names a table; `m` is the table of the last part. -/
  | table (m : Nat)
  /-- The parts before `rest` name tables, the last of them `P`, and the field
  of `P` for the first part of `rest` is nil. -/
  | missing (P : Nat) (rest : List String)
  /-- A part names a value that is neither nil nor a table. -/
  | conflict
  /-- A part is to be read from a reference to no table. -/
  | dangling
deriving DecidableEq

/-- The end of the path of the parts of a dotted name from table `cur`. -/
def followPath (tables : List Table) : Nat → List String → PathEnd
  | cur, [] => PathEnd.table cur
  | cur, p :: ps =>
    match tables[cur]? with
    | none => PathEnd.dangling
    | some T =>
      match luaH_get T.entries (Value.string p) with
      | Value.nil => PathEnd.missing cur (p :: ps)
      | Value.table x => followPath tables x ps
      | _ => PathEnd.conflict

/-- A state whose top table (table 0) has a metatable (table 1) with a
`__newindex` function. -/
def metaState : lua_State :=
  { sampleState with
    tables := [{ entries := [(Value.string "a", Value.integer 1)], metatable := some 1 },
               { entries := [(Value.string "__newindex", Value.function 9)], metatable := none }] }

/-- A state with a number on top of the stack. -/
def numberOnTop : lua_State := { sampleState with stack := [Value.integer 7] }

/-- A state with a number on top of the stack, numbers having a metatable
(table 0) with a `__newindex` function. -/
def numberWithMeta : lua_State :=
  { numberOnTop with
    tables := [{ entries := [(Value.string "__newindex", Value.function 9)],
                 metatable := none }]
    mt := [none, none, none, some 0] }

/-- The platform error strings used in the instances. -/
def sampleStrerror (e : Int) : String :=
  if e = 2 then "No such file or directory" else "Unknown error"

/-! ## Failure pairs and errors -/

theorem lua_pushstring_eq (L : lua_State) (s : Option String) :
    lua_pushstring L s = { L with stack := stringValue s :: L.stack } := by
  cases s <;> rfl

/-- C2, as amended: when the condition is true, `luf_failnil_m` and
`luf_failboolean_m` make the enclosing function return 2 with, on top of an
otherwise unchanged state, the sentinel (nil, resp. false) and then the message:
the string when the message is not NULL, nil when it is a NULL pointer.  The
message is the value of the macro argument where the expansion evaluates it,
after the sentinel push. -/
theorem luf_fail_m_returns_pair (L : lua_State) (t : Int) (m : lua_State → Option String)
    (ht : t ≠ 0) :
    luf_failnil_m L t m
        = Outcome.ret 2
            { L with stack := stringValue (m (lua_pushnil L)) :: Value.nil :: L.stack }
      ∧ luf_failboolean_m L t m
        = Outcome.ret 2
            { L with
              stack := stringValue (m (lua_pushboolean L 0)) :: Value.boolean false :: L.stack }
      ∧ (∀ s : String, stringValue (some s) = Value.string s)
      ∧ stringValue none = Value.nil := by
  refine ⟨?_, ?_, fun _ => rfl, rfl⟩
  · simp only [luf_failnil_m, if_pos ht, lua_pushstring_eq]
    rfl
  · simp only [luf_failboolean_m, if_pos ht, lua_pushstring_eq]
    rfl

/-- C2, counterexample: with a NULL message the second value left for return
is nil, not a string. -/
theorem luf_fail_m_null_message :
    luf_failnil_m sampleState 1 (fun _ => none)
        = Outcome.ret 2 { sampleState with
            stack := Value.nil :: Value.nil :: sampleState.stack }
      ∧ luf_failboolean_m sampleState 1 (fun _ => none)
        = Outcome.ret 2 { sampleState with
            stack := Value.nil :: Value.boolean false :: sampleState.stack } := by
  decide

theorem luf_fail_m_returns_pair_witness :
    luf_failnil_m sampleState 1 (fun _ => some "no such file")
        = Outcome.ret 2 { sampleState with
            stack := Value.string "no such file" :: Value.nil :: sampleState.stack }
      ∧ luf_failboolean_m sampleState 1 (fun _ => some "no such file")
        = Outcome.ret 2 { sampleState with
            stack := Value.string "no such file" :: Value.boolean false :: sampleState.stack } :=
  ⟨(luf_fail_m_returns_pair sampleState 1 (fun _ => some "no such file") (by decide)).1,
   (luf_fail_m_returns_pair sampleState 1 (fun _ => some "no such file") (by decide)).2.1⟩

/-- C3, as amended: when the requisite is true, `luf_error` raises the pushed
message as the error object, the string when the message is not NULL and nil
when it is a NULL pointer; for every message the outcome is neither a
fall-through to the next statement nor a return (the trailing `return 0` is
not reached). -/
theorem luf_error_raises (L : lua_State) (requisite : Int) (message : Option String)
    (hreq : requisite ≠ 0) :
    luf_error L requisite message
        = Outcome.raise (stringValue message)
            { L with stack := stringValue message :: L.stack }
      ∧ (∀ L1, luf_error L requisite message ≠ Outcome.next L1)
      ∧ (∀ n L1, luf_error L requisite message ≠ Outcome.ret n L1)
      ∧ (∀ s : String, stringValue (some s) = Value.string s)
      ∧ stringValue none = Value.nil := by
  have h : luf_error L requisite message
      = Outcome.raise (stringValue message)
          { L with stack := stringValue message :: L.stack } := by
    simp only [luf_error, if_pos hreq, lua_pushstring_eq, lua_error, Outcome.andThen]
  refine ⟨h, ?_, ?_, fun _ => rfl, rfl⟩
  · intro L1; rw [h]; simp
  · intro n L1; rw [h]; simp

/-- C3, counterexample: with a NULL message the raised error value is nil, not
a string. -/
theorem luf_error_null_message :
    luf_error sampleState 1 none
      = Outcome.raise Value.nil { sampleState with stack := Value.nil :: sampleState.stack } := by
  decide

theorem luf_error_raises_witness :
    luf_error sampleState 1 (some "bad argument")
        = Outcome.raise (Value.string "bad argument")
            { sampleState with stack := Value.string "bad argument" :: sampleState.stack }
      ∧ (∀ L1, luf_error sampleState 1 (some "bad argument") ≠ Outcome.next L1)
      ∧ (∀ n L1, luf_error sampleState 1 (some "bad argument") ≠ Outcome.ret n L1) :=
  ⟨(luf_error_raises sampleState 1 (some "bad argument") (by decide)).1,
   (luf_error_raises sampleState 1 (some "bad argument") (by decide)).2.1,
   (luf_error_raises sampleState 1 (some "bad argument") (by decide)).2.2.1⟩

/-- C4: when the requisite is false, `luf_error` falls through to the next
statement with the state exactly as it was. -/
theorem luf_error_false_is_skip (L : lua_State) (message : Option String) :
    luf_error L 0 message = Outcome.next L := by
  simp [luf_error]

/-- C8: `luf_failnil` and `luf_failboolean` coincide with the `_m` macros
given the platform error string of the error number current when the macro
starts; when the condition is true they return 2 with the sentinel and that
string on top. -/
theorem luf_fail_errno_refines (strerror : Int → String) (L : lua_State) (t : Int) :
    luf_failnil strerror L t = luf_failnil_spec strerror L t
      ∧ luf_failboolean strerror L t = luf_failboolean_spec strerror L t
      ∧ (t ≠ 0 → luf_failnil strerror L t
          = Outcome.ret 2 { L with stack := Value.string (strerror L.errno) :: Value.nil :: L.stack })
      ∧ (t ≠ 0 → luf_failboolean strerror L t
          = Outcome.ret 2
              { L with stack := Value.string (strerror L.errno) :: Value.boolean false :: L.stack }) := by
  have h0 : toCInt 0 = 0 := by decide
  refine ⟨?_, ?_, ?_, ?_⟩
  · simp [luf_failnil, luf_failnil_spec, luf_failnil_m, lua_pushnil]
  · simp [luf_failboolean, luf_failboolean_spec, luf_failboolean_m, lua_pushboolean]
  · intro ht; simp [luf_failnil, luf_failnil_m, ht, lua_pushnil, lua_pushstring]
  · intro ht; simp [luf_failboolean, luf_failboolean_m, ht, lua_pushboolean, lua_pushstring, h0]

/-- C9: when the condition is false, the four failure-pair macros fall through
to the next statement with the state exactly as it was. -/
theorem luf_fail_false_is_skip (strerror : Int → String) (L : lua_State)
    (m : lua_State → Option String) :
    luf_failnil_m L 0 m = Outcome.next L
      ∧ luf_failboolean_m L 0 m = Outcome.next L
      ∧ luf_failnil strerror L 0 = Outcome.next L
      ∧ luf_failboolean strerror L 0 = Outcome.next L := by
  simp [luf_failnil_m, luf_failboolean_m, luf_failnil, luf_failboolean]

/-! ## Raw table access -/

theorem luaH_get_cons (e : Value × Value) (es : List (Value × Value)) (k : Value) :
    luaH_get (e :: es) k = if k = e.1 then e.2 else luaH_get es k := by
  obtain ⟨a, b⟩ := e
  by_cases h : k = a
  · subst h; simp [luaH_get, List.lookup]
  · have hb : (k == a) = false := by simpa using h
    simp [luaH_get, List.lookup, hb, h]

theorem luaH_get_append_new (es : List (Value × Value)) (k v : Value)
    (h : k ∉ es.map Prod.fst) : luaH_get (es ++ [(k, v)]) k = v := by
  induction es with
  | nil => simp [luaH_get_cons]
  | cons e es ih =>
    simp only [List.map_cons, List.mem_cons, not_or] at h
    rw [List.cons_append, luaH_get_cons, if_neg h.1, ih h.2]

theorem luaH_get_append_other (es : List (Value × Value)) (k v k1 : Value)
    (h : k1 ≠ k) : luaH_get (es ++ [(k, v)]) k1 = luaH_get es k1 := by
  induction es with
  | nil =>
    show luaH_get [(k, v)] k1 = luaH_get [] k1
    rw [luaH_get_cons, if_neg h]
  | cons e es ih => rw [List.cons_append, luaH_get_cons, luaH_get_cons, ih]

theorem luaH_get_replace_self (es : List (Value × Value)) (k v : Value)
    (h : k ∈ es.map Prod.fst) :
    luaH_get (es.map (fun e => if e.1 = k then (k, v) else e)) k = v := by
  induction es with
  | nil => simp at h
  | cons e es ih =>
    rw [List.map_cons, luaH_get_cons]
    by_cases he : e.1 = k
    · simp [he]
    · have hk : k ≠ e.1 := fun h1 => he h1.symm
      simp only [List.map_cons, List.mem_cons] at h
      rcases h with h | h
      · exact absurd h hk
      · simp [he, hk, ih h]

theorem luaH_get_replace_other (es : List (Value × Value)) (k v k1 : Value)
    (h : k1 ≠ k) :
    luaH_get (es.map (fun e => if e.1 = k then (k, v) else e)) k1 = luaH_get es k1 := by
  induction es with
  | nil => rfl
  | cons e es ih =>
    rw [List.map_cons, luaH_get_cons, luaH_get_cons, ih]
    by_cases he : e.1 = k
    · have h1 : k1 ≠ e.1 := by rw [he]; exact h
      simp [he, h, h1]
    · simp [he]

theorem filter_other_cons (e : Value × Value) (es : List (Value × Value)) (k : Value) :
    (e :: es).filter (fun e => e.1 ≠ k)
      = if e.1 = k then es.filter (fun e => e.1 ≠ k) else e :: es.filter (fun e => e.1 ≠ k) := by
  by_cases he : e.1 = k <;> simp [List.filter_cons, he]

theorem luaH_get_filter_other (es : List (Value × Value)) (k k1 : Value) (h : k1 ≠ k) :
    luaH_get (es.filter (fun e => e.1 ≠ k)) k1 = luaH_get es k1 := by
  induction es with
  | nil => rfl
  | cons e es ih =>
    rw [filter_other_cons]
    by_cases he : e.1 = k
    · have h1 : k1 ≠ e.1 := by rw [he]; exact h
      rw [if_pos he, ih, luaH_get_cons, if_neg h1]
    · rw [if_neg he, luaH_get_cons, luaH_get_cons, ih]

theorem filter_other_replace (es : List (Value × Value)) (k v : Value) :
    (es.map (fun e => if e.1 = k then (k, v) else e)).filter (fun e => e.1 ≠ k)
      = es.filter (fun e => e.1 ≠ k) := by
  induction es with
  | nil => rfl
  | cons e es ih =>
    rw [List.map_cons, filter_other_cons, filter_other_cons, ih]
    by_cases he : e.1 = k <;> simp [he]

/-- After a raw write of a non-nil value the key reads back as that value. -/
theorem luaH_get_set_self (es : List (Value × Value)) (k v : Value) (hv : v ≠ Value.nil) :
    luaH_get (luaH_set es k v) k = v := by
  unfold luaH_set
  rw [if_neg hv]
  split
  · next h => exact luaH_get_replace_self es k v h
  · next h => exact luaH_get_append_new es k v h

/-- A raw write leaves every other key as it was. -/
theorem luaH_get_set_other (es : List (Value × Value)) (k v k1 : Value) (h : k1 ≠ k) :
    luaH_get (luaH_set es k v) k1 = luaH_get es k1 := by
  unfold luaH_set
  split
  · exact luaH_get_filter_other es k k1 h
  · split
    · exact luaH_get_replace_other es k v k1 h
    · exact luaH_get_append_other es k v k1 h

/-- A raw write leaves the entries of the other keys as they were, in order. -/
theorem luaH_set_filter_other (es : List (Value × Value)) (k v : Value) :
    (luaH_set es k v).filter (fun e => e.1 ≠ k) = es.filter (fun e => e.1 ≠ k) := by
  unfold luaH_set
  split
  · simp [List.filter_filter]
  · split
    · exact filter_other_replace es k v
    · simp [List.filter_append]

/-- A raw write of a non-nil value to a key with an entry keeps the number of
entries. -/
theorem luaH_set_length_present (es : List (Value × Value)) (k v : Value)
    (hv : v ≠ Value.nil) (h : k ∈ es.map Prod.fst) :
    (luaH_set es k v).length = es.length := by
  simp [luaH_set, hv, h]

/-- A raw write of a non-nil value to a key without an entry adds the entry. -/
theorem luaH_set_absent (es : List (Value × Value)) (k v : Value)
    (hv : v ≠ Value.nil) (h : k ∉ es.map Prod.fst) :
    luaH_set es k v = es ++ [(k, v)] := by
  simp [luaH_set, hv, h]

theorem luaH_set_mem_keys (es : List (Value × Value)) (k v : Value) (hv : v ≠ Value.nil) :
    k ∈ (luaH_set es k v).map Prod.fst := by
  unfold luaH_set
  rw [if_neg hv]
  split
  · next h =>
    simp only [List.mem_map] at h ⊢
    obtain ⟨e, he, hk⟩ := h
    exact ⟨(k, v), ⟨e, he, if_pos hk⟩, rfl⟩
  · simp

/-- Repeating a raw write of a non-nil value changes nothing. -/
theorem luaH_set_idem (es : List (Value × Value)) (k v : Value) (hv : v ≠ Value.nil) :
    luaH_set (luaH_set es k v) k v = luaH_set es k v := by
  have hmem := luaH_set_mem_keys es k v hv
  have key : ∀ es1 : List (Value × Value), k ∈ es1.map Prod.fst →
      luaH_set es1 k v = es1.map (fun e => if e.1 = k then (k, v) else e) := by
    intro es1 h1
    simp [luaH_set, hv, h1]
  rw [key _ hmem]
  unfold luaH_set
  rw [if_neg hv]
  split
  · rw [List.map_map]
    apply List.map_congr_left
    intro e _
    by_cases he : e.1 = k <;> simp [he]
  · next h =>
    rw [List.map_append]
    have : es.map (fun e => if e.1 = k then (k, v) else e) = es := by
      conv_rhs => rw [← List.map_id es]
      apply List.map_congr_left
      intro e he
      have : e.1 ≠ k := fun h1 => h (List.mem_map.mpr ⟨e, he, h1⟩)
      simp [this]
    simp [this]

theorem luaH_get_filter_self (es : List (Value × Value)) (k : Value) :
    luaH_get (es.filter (fun e => e.1 ≠ k)) k = Value.nil := by
  induction es with
  | nil => rfl
  | cons e es ih =>
    rw [filter_other_cons]
    by_cases he : e.1 = k
    · rw [if_pos he, ih]
    · have hk : k ≠ e.1 := fun h => he h.symm
      rw [if_neg he, luaH_get_cons, if_neg hk, ih]

/-- After a raw write the key reads back as the value written, nil included. -/
theorem luaH_get_set_same (es : List (Value × Value)) (k v : Value) :
    luaH_get (luaH_set es k v) k = v := by
  by_cases hv : v = Value.nil
  · subst hv
    simp only [luaH_set, if_true]
    exact luaH_get_filter_self es k
  · exact luaH_get_set_self es k v hv

/-- A raw write of nil removes the entries of the key. -/
theorem luaH_set_nil (es : List (Value × Value)) (k : Value) :
    luaH_set es k Value.nil = es.filter (fun e => e.1 ≠ k) := by
  simp [luaH_set]

/-- Repeating a raw write changes nothing, whatever the value. -/
theorem luaH_set_idem_any (es : List (Value × Value)) (k v : Value) :
    luaH_set (luaH_set es k v) k v = luaH_set es k v := by
  by_cases hv : v = Value.nil
  · subst hv
    rw [luaH_set_nil, luaH_set_nil, List.filter_filter]
    simp
  · exact luaH_set_idem es k v hv

/-- A raw write of nil never adds an entry. -/
theorem luaH_set_nil_length (es : List (Value × Value)) (k : Value) :
    (luaH_set es k Value.nil).length ≤ es.length := by
  rw [luaH_set_nil]
  exact List.length_filter_le _ _

/-! ## `lua_settable` below two pushed values -/

theorem LUA_REGISTRYINDEX_lt (L : lua_State) : LUA_REGISTRYINDEX L < -3 := by
  unfold LUA_REGISTRYINDEX; split <;> decide

theorem index2adr_neg3 (L : lua_State) : index2adr L (-3) = L.stack[2]? := by
  unfold index2adr
  rw [if_neg (by decide), if_neg (by decide), if_pos (LUA_REGISTRYINDEX_lt L)]
  rfl

theorem MAXTAGLOOP_succ (L : lua_State) : ∃ n, MAXTAGLOOP L = n + 1 := by
  unfold MAXTAGLOOP; split
  · exact ⟨99, rfl⟩
  · exact ⟨1999, rfl⟩

theorem getElem?_lt_length {α : Type} (l : List α) (i : Nat) (a : α) (h : l[i]? = some a) :
    i < l.length := by
  by_contra hlt
  rw [List.getElem?_eq_none (Nat.le_of_not_lt hlt)] at h
  exact Option.noConfusion h

theorem set_of_getElem? {α : Type} (l : List α) (i : Nat) (a : α) (h : l[i]? = some a) :
    l.set i a = l := by
  induction l generalizing i with
  | nil => rfl
  | cons x xs ih =>
    cases i with
    | zero =>
      simp only [List.getElem?_cons_zero, Option.some.injEq] at h
      simp [h]
    | succ j =>
      simp only [List.getElem?_cons_succ] at h
      simp [ih j h]

/-- With a table third from the top whose assignment needs no metamethod,
`lua_settable(L,-3)` is the raw store followed by the two pops: an error for a
key that is nil or NaN, the raw write otherwise. -/
theorem lua_settable_store (L : lua_State) (r : Nat) (S : List Value) (T : Table) (k v : Value)
    (hstack : L.stack = Value.table r :: S) (hT : L.tables[r]? = some T)
    (hstore : luaH_get T.entries k ≠ Value.nil
      ∨ luaT_gettmbyobj L (Value.table r) "__newindex" = Value.nil) :
    lua_settable { L with stack := v :: k :: L.stack } (-3)
      = match badkey k with
        | some msg => Outcome.raise (Value.string msg) { L with stack := v :: k :: L.stack }
        | none => Outcome.next
            { L with tables := L.tables.set r { T with entries := luaH_set T.entries k v } } := by
  have hidx : index2adr { L with stack := v :: k :: L.stack } (-3) = some (Value.table r) := by
    rw [index2adr_neg3]
    simp [hstack]
  obtain ⟨n, hn⟩ := MAXTAGLOOP_succ { L with stack := v :: k :: L.stack }
  have htm : luaT_gettmbyobj { L with stack := v :: k :: L.stack } (Value.table r) "__newindex"
      = luaT_gettmbyobj L (Value.table r) "__newindex" := rfl
  simp only [lua_settable, hidx, hn, luaV_settable, hT, htm]
  rw [if_pos hstore]
  unfold rawstore
  cases hb : badkey k with
  | some msg => simp [Outcome.andThen]
  | none => simp [Outcome.andThen, hstack]

theorem lua_settable_raw (L : lua_State) (r : Nat) (S : List Value) (T : Table) (k v : Value)
    (hstack : L.stack = Value.table r :: S) (hT : L.tables[r]? = some T)
    (hstore : luaH_get T.entries k ≠ Value.nil
      ∨ luaT_gettmbyobj L (Value.table r) "__newindex" = Value.nil)
    (hk : badkey k = none) :
    lua_settable { L with stack := v :: k :: L.stack } (-3)
      = Outcome.next
          { L with tables := L.tables.set r { T with entries := luaH_set T.entries k v } } := by
  rw [lua_settable_store L r S T k v hstack hT hstore, hk]

theorem lua_pushboolean_eq (L : lua_State) (b : Int) :
    lua_pushboolean L b = { L with stack := Value.boolean (toCInt b != 0) :: L.stack } := rfl

/-- Each of the eight field macros is `lua_settable(L,-3)` on the state after
its two pushes; its key is nil (a NULL string) or can start an entry. -/
theorem fieldCalls_run (ver : Nat) (ks : Option String) (ki : Int) (vb vi : Int) (vn : Nat)
    (vs : Option String) (c : FieldCall) (hc : c ∈ fieldCalls ver ks ki vb vi vn vs) :
    (∀ L : lua_State, L.LUA_VERSION_NUM = ver →
        c.run L = lua_settable { L with stack := c.val :: c.key :: L.stack } (-3))
      ∧ (c.key ≠ Value.nil → badkey c.key = none) := by
  simp only [fieldCalls, List.mem_cons, List.mem_singleton, List.mem_nil_iff, or_false] at hc
  rcases hc with h | h | h | h | h | h | h | h <;> subst h
  all_goals
    refine ⟨fun L hL => ?_, fun hk => ?_⟩
    · subst hL
      simp only [luf_fpush_sb, luf_fpush_si, luf_fpush_sn, luf_fpush_ss, luf_fpush_in,
        luf_fpush_ii, luf_fpush_is, luf_fpush_ib, luf_fpush, lua_pushstring_eq]
      try rfl
    · first
        | rfl
        | (cases ks with
           | none => exact absurd rfl hk
           | some s => rfl)

theorem badkey_nil : badkey Value.nil = some "table index is nil" := rfl

/-- The outcome of a field macro on a table whose assignment needs no
metamethod: the error "table index is nil" for a nil key, the raw write
otherwise. -/
theorem fieldPush_store (run : lua_State → Outcome) (kv vv : Value)
    (L : lua_State) (r : Nat) (S : List Value) (T : Table)
    (hrun : run L = lua_settable { L with stack := vv :: kv :: L.stack } (-3))
    (hstack : L.stack = Value.table r :: S) (hT : L.tables[r]? = some T)
    (hstore : luaH_get T.entries kv ≠ Value.nil
      ∨ luaT_gettmbyobj L (Value.table r) "__newindex" = Value.nil) :
    (kv = Value.nil → run L = Outcome.raise (Value.string "table index is nil")
        { L with stack := vv :: kv :: L.stack })
      ∧ (badkey kv = none → run L = Outcome.next
          { L with tables := L.tables.set r { T with entries := luaH_set T.entries kv vv } }) := by
  have h := lua_settable_store L r S T kv vv hstack hT hstore
  constructor
  · intro hk
    rw [hrun, h, hk, badkey_nil]
  · intro hk
    rw [hrun, h, hk]

theorem gettm_plain (L : lua_State) (r : Nat) (T : Table) (ev : String)
    (hT : L.tables[r]? = some T) (hplain : T.metatable = none) :
    luaT_gettmbyobj L (Value.table r) ev = Value.nil := by
  simp [luaT_gettmbyobj, getmetatable, hT, hplain]

/-! ## Field macros -/

/-- C10, as amended: applied with a table without metatable on top of the
stack and a key that is not a NULL string, each of the eight field macros
falls through with only that table changed: the stack (the table and every slot
below it) and the rest of the state are as before, the entries of the other keys
are unchanged, the key reads back as the value; a value that is not a NULL
string replaces the value of a key that already had an entry and keeps the
number of entries, a NULL string value (pushed as nil) removes the entry of the
key; repeating the call changes nothing.  With a NULL string key the host
raises "table index is nil" and the table and the slots below the two pushed
values are as before. -/
theorem luf_fpush_plain_table_frame (L : lua_State) (r : Nat) (S : List Value) (T : Table)
    (ks : Option String) (ki : Int) (vb vi : Int) (vn : Nat) (vs : Option String)
    (hstack : L.stack = Value.table r :: S) (hT : L.tables[r]? = some T)
    (hplain : T.metatable = none) :
    ∀ c ∈ fieldCalls L.LUA_VERSION_NUM ks ki vb vi vn vs,
      (c.key ≠ Value.nil → ∃ L1 T1,
        c.run L = Outcome.next L1
          ∧ L1 = { L with tables := L.tables.set r T1 }
          ∧ L1.stack = L.stack
          ∧ L1.tables[r]? = some T1
          ∧ (∀ r1, r1 ≠ r → L1.tables[r1]? = L.tables[r1]?)
          ∧ T1.metatable = none
          ∧ T1.entries.filter (fun e => e.1 ≠ c.key) = T.entries.filter (fun e => e.1 ≠ c.key)
          ∧ (∀ k1, k1 ≠ c.key → luaH_get T1.entries k1 = luaH_get T.entries k1)
          ∧ luaH_get T1.entries c.key = c.val
          ∧ (c.val ≠ Value.nil → c.key ∈ T.entries.map Prod.fst →
              T1.entries.length = T.entries.length)
          ∧ (c.val = Value.nil → T1.entries = T.entries.filter (fun e => e.1 ≠ c.key))
          ∧ c.run L1 = Outcome.next L1)
      ∧ (c.key = Value.nil →
          c.run L = Outcome.raise (Value.string "table index is nil")
            { L with stack := c.val :: c.key :: L.stack }) := by
  intro c hc
  obtain ⟨hrun, hkey⟩ := fieldCalls_run L.LUA_VERSION_NUM ks ki vb vi vn vs c hc
  have hlt := getElem?_lt_length L.tables r T hT
  have hst := fieldPush_store c.run c.key c.val L r S T (hrun L rfl) hstack hT
    (Or.inr (gettm_plain L r T "__newindex" hT hplain))
  refine ⟨fun hk => ?_, hst.1⟩
  refine ⟨{ L with tables := L.tables.set r { T with entries := luaH_set T.entries c.key c.val } },
    { T with entries := luaH_set T.entries c.key c.val }, hst.2 (hkey hk), rfl, rfl, ?_, ?_,
    hplain, ?_, ?_, ?_, ?_, ?_, ?_⟩
  · exact List.getElem?_set_self hlt
  · intro r1 h1
    exact List.getElem?_set_ne (fun h => h1 h.symm)
  · exact luaH_set_filter_other T.entries c.key c.val
  · intro k1 h1
    exact luaH_get_set_other T.entries c.key c.val k1 h1
  · exact luaH_get_set_same T.entries c.key c.val
  · intro hv hmem
    exact luaH_set_length_present T.entries c.key c.val hv hmem
  · intro hv
    show luaH_set T.entries c.key c.val = _
    rw [hv, luaH_set_nil]
  · have h2 := fieldPush_store c.run c.key c.val
      { L with tables := L.tables.set r { T with entries := luaH_set T.entries c.key c.val } }
      r S { T with entries := luaH_set T.entries c.key c.val } (hrun _ rfl) hstack
      (List.getElem?_set_self hlt)
      (Or.inr (gettm_plain _ r _ "__newindex" (List.getElem?_set_self hlt) hplain))
    rw [h2.2 (hkey hk)]
    simp [luaH_set_idem_any, List.set_set]

/-- C1, as amended: applied with a table on top of the stack that has no
`__newindex` metamethod or already holds a value under the key, each of the
eight field macros behaves as follows.  With a key that is not a NULL string it
falls through with the stack as before the call (so its depth too) and only
that table changed, the key reading back as the value: when the value is not a
NULL string and the table had no entry for the key, the table has gained
exactly the one entry of key and value; when the value is not a NULL string and
the table had an entry for the key, the number of entries and the entries of
the other keys are as before; when the value is a NULL string (pushed as nil)
the entries of the key are removed and none is gained.  With a NULL string key
the host raises "table index is nil" and the table is as before. -/
theorem luf_fpush_adds_entry (L : lua_State) (r : Nat) (S : List Value) (T : Table)
    (ks : Option String) (ki : Int) (vb vi : Int) (vn : Nat) (vs : Option String)
    (hstack : L.stack = Value.table r :: S) (hT : L.tables[r]? = some T) :
    ∀ c ∈ fieldCalls L.LUA_VERSION_NUM ks ki vb vi vn vs,
      (luaH_get T.entries c.key ≠ Value.nil
          ∨ luaT_gettmbyobj L (Value.table r) "__newindex" = Value.nil) →
      (c.key ≠ Value.nil → ∃ L1 T1,
        c.run L = Outcome.next L1
          ∧ L1 = { L with tables := L.tables.set r T1 }
          ∧ L1.stack = L.stack
          ∧ L1.stack.length = L.stack.length
          ∧ L1.tables[r]? = some T1
          ∧ luaH_get T1.entries c.key = c.val
          ∧ (c.val ≠ Value.nil → c.key ∉ T.entries.map Prod.fst →
              T1 = { T with entries := T.entries ++ [(c.key, c.val)] }
                ∧ T1.entries.length = T.entries.length + 1)
          ∧ (c.val ≠ Value.nil → c.key ∈ T.entries.map Prod.fst →
              T1.entries.length = T.entries.length
                ∧ T1.entries.filter (fun e => e.1 ≠ c.key)
                    = T.entries.filter (fun e => e.1 ≠ c.key))
          ∧ (c.val = Value.nil →
              T1 = { T with entries := T.entries.filter (fun e => e.1 ≠ c.key) }
                ∧ T1.entries.length ≤ T.entries.length))
      ∧ (c.key = Value.nil →
          c.run L = Outcome.raise (Value.string "table index is nil")
            { L with stack := c.val :: c.key :: L.stack }) := by
  intro c hc hstore
  obtain ⟨hrun, hkey⟩ := fieldCalls_run L.LUA_VERSION_NUM ks ki vb vi vn vs c hc
  have hlt := getElem?_lt_length L.tables r T hT
  have hst := fieldPush_store c.run c.key c.val L r S T (hrun L rfl) hstack hT hstore
  refine ⟨fun hk => ?_, hst.1⟩
  refine ⟨{ L with tables := L.tables.set r { T with entries := luaH_set T.entries c.key c.val } },
    { T with entries := luaH_set T.entries c.key c.val }, hst.2 (hkey hk), rfl, rfl, rfl, ?_,
    ?_, ?_, ?_, ?_⟩
  · exact List.getElem?_set_self hlt
  · exact luaH_get_set_same T.entries c.key c.val
  · intro hv hnew
    rw [luaH_set_absent T.entries c.key c.val hv hnew]
    exact ⟨rfl, by simp⟩
  · intro hv hmem
    exact ⟨luaH_set_length_present T.entries c.key c.val hv hmem,
      luaH_set_filter_other T.entries c.key c.val⟩
  · intro hv
    rw [hv, luaH_set_nil]
    exact ⟨rfl, List.length_filter_le _ _⟩

/-- C7: each field macro, for every key and value (NULL strings included), is
its two pushes followed by `lua_settable(L,-3)` and nothing else; with a value
on top that is not a table, the outcome is the host's: the type error "attempt
to index a T value" when the value has no `__newindex` metamethod, a call of
the metamethod when that is a function. -/
theorem luf_fpush_non_table (L : lua_State) (x : Value) (S : List Value)
    (ks : Option String) (ki : Int) (vb vi : Int) (vn : Nat) (vs : Option String)
    (hstack : L.stack = x :: S) (hx : ∀ r, x ≠ Value.table r) :
    ∀ c ∈ fieldCalls L.LUA_VERSION_NUM ks ki vb vi vn vs,
      c.run L = lua_settable { L with stack := c.val :: c.key :: L.stack } (-3)
        ∧ (luaT_gettmbyobj L x "__newindex" = Value.nil →
            c.run L = Outcome.raise
              (Value.string ("attempt to index a " ++ luaT_objtypename L x ++ " value"))
              { L with stack := c.val :: c.key :: L.stack })
        ∧ (∀ f, luaT_gettmbyobj L x "__newindex" = Value.function f →
            c.run L = Outcome.metacall (Value.function f) [x, c.key, c.val]
              { L with stack := c.val :: c.key :: L.stack }) := by
  intro c hc
  obtain ⟨hrun, -⟩ := fieldCalls_run L.LUA_VERSION_NUM ks ki vb vi vn vs c hc
  have hidx : index2adr { L with stack := c.val :: c.key :: L.stack } (-3) = some x := by
    rw [index2adr_neg3]
    simp [hstack]
  obtain ⟨n, hn⟩ := MAXTAGLOOP_succ { L with stack := c.val :: c.key :: L.stack }
  have htm : luaT_gettmbyobj { L with stack := c.val :: c.key :: L.stack } x "__newindex"
      = luaT_gettmbyobj L x "__newindex" := rfl
  have hname : luaT_objtypename { L with stack := c.val :: c.key :: L.stack } x
      = luaT_objtypename L x := rfl
  have hmsg : ∀ t : String, "attempt to " ++ "index" ++ " a " ++ t ++ " value"
      = "attempt to index a " ++ t ++ " value" := by
    intro t
    have : "attempt to " ++ "index" ++ " a " = "attempt to index a " := by decide
    rw [this]
  refine ⟨hrun L rfl, ?_, ?_⟩
  · intro hnil
    rw [hrun L rfl]
    simp only [lua_settable, hidx, hn]
    cases x <;>
      first
      | exact absurd rfl (hx _)
      | simp [luaV_settable, htm, hnil, luaG_typeerror, hname, hmsg, Outcome.andThen]
  · intro f hf
    rw [hrun L rfl]
    simp only [lua_settable, hidx, hn]
    cases x <;>
      first
      | exact absurd rfl (hx _)
      | simp [luaV_settable, htm, hf, Outcome.andThen]

/-! ## Registration loop -/

theorem regValue_ne_nil (ver f : Nat) : regValue ver f ≠ Value.nil := by
  unfold regValue
  split <;> simp

theorem rawsetField_eq (tables : List Table) (r : Nat) (T : Table) (k v : Value)
    (h : tables[r]? = some T) :
    rawsetField tables r k v = tables.set r { T with entries := luaH_set T.entries k v } := by
  simp [rawsetField, h]

theorem registerAll_eq_set (ver : Nat) (l : List luaL_Reg) :
    ∀ (tables : List Table) (m : Nat) (M : Table), tables[m]? = some M →
      registerAll ver tables m l
        = tables.set m { M with entries := registered ver M.entries l } := by
  induction l with
  | nil =>
    intro tables m M hM
    exact (set_of_getElem? tables m M hM).symm
  | cons e l ih =>
    intro tables m M hM
    have hlt := getElem?_lt_length tables m M hM
    rw [registerAll, rawsetField_eq tables m M _ _ hM,
      ih _ m (Table.mk (luaH_set M.entries (Value.string e.1) (regValue ver e.2)) M.metatable)
        (List.getElem?_set_self hlt)]
    simp [registered, List.set_set]

theorem registered_append (ver : Nat) (es : List (Value × Value)) (l : List luaL_Reg)
    (e : luaL_Reg) :
    registered ver es (l ++ [e])
      = luaH_set (registered ver es l) (Value.string e.1) (regValue ver e.2) := by
  simp [registered, List.foldl_append]

theorem lastFunc_append (l : List luaL_Reg) (e : luaL_Reg) (name : String) :
    lastFunc (l ++ [e]) name = if name = e.1 then some e.2 else lastFunc l name := by
  obtain ⟨a, b⟩ := e
  by_cases h : name = a
  · subst h; simp [lastFunc, List.lookup]
  · have hb : (name == a) = false := by simpa using h
    simp [lastFunc, List.lookup, hb, h]

/-- Reading a name after registration gives the last function the list binds
to it, and the earlier value when the list does not name it. -/
theorem luaH_get_registered (ver : Nat) (es : List (Value × Value)) (l : List luaL_Reg)
    (name : String) :
    luaH_get (registered ver es l) (Value.string name)
      = match lastFunc l name with
        | some f => regValue ver f
        | none => luaH_get es (Value.string name) := by
  induction l using List.reverseRecOn with
  | nil => simp [registered, lastFunc]
  | append_singleton l e ih =>
    rw [registered_append, lastFunc_append]
    by_cases hn : name = e.1
    · rw [if_pos hn, hn]
      exact luaH_get_set_self _ _ _ (regValue_ne_nil ver e.2)
    · rw [if_neg hn, luaH_get_set_other _ _ _ _ (by simpa using hn), ih]

/-- Registration in a table binds every name of the list to the last function
the list gives it. -/
theorem rawgetField_registerAll_name (ver : Nat) (l : List luaL_Reg) (tables : List Table)
    (m : Nat) (M : Table) (hM : tables[m]? = some M) (name : String) (f : Nat)
    (hf : lastFunc l name = some f) :
    rawgetField (registerAll ver tables m l) m (Value.string name) = regValue ver f := by
  have hlt := getElem?_lt_length tables m M hM
  rw [registerAll_eq_set ver l tables m M hM]
  simp only [rawgetField, List.getElem?_set_self hlt]
  rw [luaH_get_registered, hf]

theorem followPath_missing (parts : List String) :
    ∀ (tables : List Table) (cur P : Nat) (rest : List String),
      followPath tables cur parts = PathEnd.missing P rest →
      P < tables.length ∧ ∃ p ps, rest = p :: ps ∧ rawgetField tables P (Value.string p) = Value.nil := by
  induction parts with
  | nil => intro tables cur P rest h; simp [followPath] at h
  | cons q qs ih =>
    intro tables cur P rest h
    cases hcur : tables[cur]? with
    | none => simp [followPath, hcur] at h
    | some T =>
      cases hv : luaH_get T.entries (Value.string q) with
      | nil =>
        simp only [followPath, hcur, hv, PathEnd.missing.injEq] at h
        obtain ⟨hP, hrest⟩ := h
        subst hP
        exact ⟨getElem?_lt_length tables cur T hcur, q, qs, hrest.symm, by
          simp [rawgetField, hcur, hv]⟩
      | table x =>
        simp only [followPath, hcur, hv] at h
        exact ih tables x P rest h
      | _ => simp [followPath, hcur, hv] at h

/-- C1, counterexample: with the table `{a = 1}` on top, `luf_fpush_si(L,"a",5)`
replaces the value of the entry and the table still has one entry, so it has
gained none; with a table whose metatable has a `__newindex` function, the macro
hands the assignment to that function and the table is not written; with a NULL
string value the entry of the key is removed; with a NULL string key the host
raises an error. -/
theorem luf_fpush_existing_key_no_new_entry :
    sampleState.tables = [{ entries := [(Value.string "a", Value.integer 1)], metatable := none }]
      ∧ luf_fpush_si sampleState (some "a") 5
        = Outcome.next { sampleState with
            tables := [{ entries := [(Value.string "a", Value.integer 5)], metatable := none }] }
      ∧ luf_fpush_si metaState (some "b") 5
        = Outcome.metacall (Value.function 9) [Value.table 0, Value.string "b", Value.integer 5]
            { metaState with
              stack := [Value.integer 5, Value.string "b", Value.table 0, Value.integer 7] }
      ∧ luf_fpush_ss sampleState (some "a") none
        = Outcome.next { sampleState with tables := [{ entries := [], metatable := none }] }
      ∧ luf_fpush_si sampleState none 5
        = Outcome.raise (Value.string "table index is nil")
            { sampleState with
              stack := [Value.integer 5, Value.nil, Value.table 0, Value.integer 7] } := by
  decide

/-- C10, counterexample: with the table `{a = 1}` (no metatable) on top,
`luf_fpush_ss(L,"a",NULL)` and `luf_fpush_is` with a NULL value remove the entry
of the key instead of replacing its value: the table goes from one entry to
none. -/
theorem luf_fpush_null_value_removes_entry :
    sampleState.tables = [{ entries := [(Value.string "a", Value.integer 1)], metatable := none }]
      ∧ luf_fpush_ss sampleState (some "a") none
        = Outcome.next { sampleState with tables := [{ entries := [], metatable := none }] }
      ∧ luf_fpush_is
          { sampleState with
            tables := [{ entries := [(Value.integer 1, Value.integer 1)], metatable := none }] }
          1 none
        = Outcome.next { sampleState with tables := [{ entries := [], metatable := none }] } := by
  decide

theorem luf_fpush_adds_entry_witness :
    (∃ L1 T1,
      luf_fpush_si sampleState (some "b") 5 = Outcome.next L1
        ∧ L1 = { sampleState with tables := sampleState.tables.set 0 T1 }
        ∧ L1.stack = sampleState.stack
        ∧ L1.stack.length = sampleState.stack.length
        ∧ L1.tables[0]? = some T1
        ∧ luaH_get T1.entries (Value.string "b") = Value.integer (pushedInteger 503 5)
        ∧ (Value.integer (pushedInteger 503 5) ≠ Value.nil →
            Value.string "b" ∉ [(Value.string "a", Value.integer 1)].map Prod.fst →
            T1 = { entries := [(Value.string "a", Value.integer 1)] ++
                      [(Value.string "b", Value.integer (pushedInteger 503 5))], metatable := none }
              ∧ T1.entries.length = [(Value.string "a", Value.integer 1)].length + 1)
        ∧ (Value.integer (pushedInteger 503 5) ≠ Value.nil →
            Value.string "b" ∈ [(Value.string "a", Value.integer 1)].map Prod.fst →
            T1.entries.length = [(Value.string "a", Value.integer 1)].length
              ∧ T1.entries.filter (fun e => e.1 ≠ Value.string "b")
                  = [(Value.string "a", Value.integer 1)].filter
                      (fun e => e.1 ≠ Value.string "b"))
        ∧ (Value.integer (pushedInteger 503 5) = Value.nil →
            T1 = { entries := [(Value.string "a", Value.integer 1)].filter
                      (fun e => e.1 ≠ Value.string "b"), metatable := none }
              ∧ T1.entries.length ≤ [(Value.string "a", Value.integer 1)].length))
      ∧ luf_fpush_si sampleState none 5
        = Outcome.raise (Value.string "table index is nil")
            { sampleState with
              stack := Value.integer (pushedInteger 503 5) :: Value.nil :: sampleState.stack } :=
  ⟨(luf_fpush_adds_entry sampleState 0 [Value.integer 7]
      { entries := [(Value.string "a", Value.integer 1)], metatable := none }
      (some "b") 1 1 5 0 (some "x") rfl rfl
      ⟨Value.string "b", Value.integer (pushedInteger 503 5), fun L => luf_fpush_si L (some "b") 5⟩
      (by simp [fieldCalls, stringValue, sampleState, numberOnTop])
      (Or.inr (by decide))).1 (by decide),
   (luf_fpush_adds_entry sampleState 0 [Value.integer 7]
      { entries := [(Value.string "a", Value.integer 1)], metatable := none }
      none 1 1 5 0 (some "x") rfl rfl
      ⟨Value.nil, Value.integer (pushedInteger 503 5), fun L => luf_fpush_si L none 5⟩
      (by simp [fieldCalls, stringValue, sampleState, numberOnTop])
      (Or.inr (by decide))).2 rfl⟩

theorem luf_fpush_plain_table_frame_witness :
    (∃ L1 T1,
      luf_fpush_ss sampleState (some "a") (some "x") = Outcome.next L1
        ∧ L1 = { sampleState with tables := sampleState.tables.set 0 T1 }
        ∧ L1.stack = sampleState.stack
        ∧ L1.tables[0]? = some T1
        ∧ (∀ r1, r1 ≠ 0 → L1.tables[r1]? = sampleState.tables[r1]?)
        ∧ T1.metatable = none
        ∧ T1.entries.filter (fun e => e.1 ≠ Value.string "a")
            = [(Value.string "a", Value.integer 1)].filter (fun e => e.1 ≠ Value.string "a")
        ∧ (∀ k1, k1 ≠ Value.string "a" →
            luaH_get T1.entries k1 = luaH_get [(Value.string "a", Value.integer 1)] k1)
        ∧ luaH_get T1.entries (Value.string "a") = Value.string "x"
        ∧ (Value.string "x" ≠ Value.nil →
            Value.string "a" ∈ [(Value.string "a", Value.integer 1)].map Prod.fst →
            T1.entries.length = [(Value.string "a", Value.integer 1)].length)
        ∧ (Value.string "x" = Value.nil →
            T1.entries = [(Value.string "a", Value.integer 1)].filter
              (fun e => e.1 ≠ Value.string "a"))
        ∧ luf_fpush_ss L1 (some "a") (some "x") = Outcome.next L1)
      ∧ luf_fpush_ss sampleState none (some "x")
        = Outcome.raise (Value.string "table index is nil")
            { sampleState with stack := Value.string "x" :: Value.nil :: sampleState.stack } :=
  ⟨(luf_fpush_plain_table_frame sampleState 0 [Value.integer 7]
      { entries := [(Value.string "a", Value.integer 1)], metatable := none }
      (some "a") 1 1 5 0 (some "x") rfl rfl rfl
      ⟨Value.string "a", Value.string "x", fun L => luf_fpush_ss L (some "a") (some "x")⟩
      (by simp [fieldCalls, stringValue, sampleState, numberOnTop])).1 (by decide),
   (luf_fpush_plain_table_frame sampleState 0 [Value.integer 7]
      { entries := [(Value.string "a", Value.integer 1)], metatable := none }
      none 1 1 5 0 (some "x") rfl rfl rfl
      ⟨Value.nil, Value.string "x", fun L => luf_fpush_ss L none (some "x")⟩
      (by simp [fieldCalls, stringValue, sampleState, numberOnTop])).2 rfl⟩

theorem luf_fpush_non_table_witness :
    luf_fpush_ss numberOnTop none (some "x")
        = lua_settable { numberOnTop with
            stack := Value.string "x" :: Value.nil :: numberOnTop.stack } (-3)
      ∧ luf_fpush_ss numberOnTop none (some "x")
        = Outcome.raise (Value.string "attempt to index a number value")
            { numberOnTop with
              stack := Value.string "x" :: Value.nil :: numberOnTop.stack }
      ∧ luf_fpush_ss numberWithMeta (some "k") (some "x")
        = Outcome.metacall (Value.function 9)
            [Value.integer 7, Value.string "k", Value.string "x"]
            { numberWithMeta with
              stack := Value.string "x" :: Value.string "k" :: numberWithMeta.stack } :=
  have h := luf_fpush_non_table numberOnTop (Value.integer 7) [] none 1 1 5 0 (some "x") rfl
    (by intro r; simp)
    ⟨Value.nil, Value.string "x", fun L => luf_fpush_ss L none (some "x")⟩
    (by simp [fieldCalls, stringValue, sampleState, numberOnTop])
  ⟨h.1, h.2.1 (by decide),
    (luf_fpush_non_table numberWithMeta (Value.integer 7) [] (some "k") 1 1 5 0 (some "x") rfl
      (by intro r; simp)
      ⟨Value.string "k", Value.string "x", fun L => luf_fpush_ss L (some "k") (some "x")⟩
      (by simp [fieldCalls, stringValue, sampleState, numberOnTop, numberWithMeta])).2.2 9
      (by decide)⟩

theorem luf_fail_errno_refines_witness :
    luf_failnil sampleStrerror sampleState 1
        = Outcome.ret 2 { sampleState with
            stack := Value.string "No such file or directory" :: Value.nil :: sampleState.stack }
      ∧ luf_failboolean sampleStrerror sampleState 1
        = Outcome.ret 2 { sampleState with
            stack := Value.string "No such file or directory" :: Value.boolean false
              :: sampleState.stack } :=
  ⟨(luf_fail_errno_refines sampleStrerror sampleState 1).2.2.1 (by decide),
   (luf_fail_errno_refines sampleStrerror sampleState 1).2.2.2 (by decide)⟩

/-- The conversions of the integer arguments, on the table `{a = 1}`: the
boolean value `4294967296` is 0 as an `int` and is stored as false; the integer
key `2 ^ 63` and value `2 ^ 64 - 1` wrap to `-2 ^ 63` and `-1` as `lua_Integer`;
under 5.1, where numbers are doubles, the integer value `2 ^ 53 + 1` is stored
as `2 ^ 53`. -/
theorem luf_fpush_argument_conversions :
    luf_fpush_sb sampleState (some "k") 4294967296
        = Outcome.next { sampleState with
            tables := [{ entries := [(Value.string "a", Value.integer 1),
                                     (Value.string "k", Value.boolean false)],
                         metatable := none }] }
      ∧ luf_fpush_ii sampleState (2 ^ 63) (2 ^ 64 - 1)
        = Outcome.next { sampleState with
            tables := [{ entries := [(Value.string "a", Value.integer 1),
                                     (Value.integer (-9223372036854775808), Value.integer (-1))],
                         metatable := none }] }
      ∧ luf_fpush_si { sampleState with LUA_VERSION_NUM := 501 } (some "k") (2 ^ 53 + 1)
        = Outcome.next { sampleState with
            LUA_VERSION_NUM := 501
            tables := [{ entries := [(Value.string "a", Value.integer 1),
                                     (Value.string "k", Value.integer 9007199254740992)],
                         metatable := none }] } := by
  decide

/-- With the key already holding a value, the `__newindex` function of the
metatable is not consulted: the value of the entry is replaced. -/
theorem luf_fpush_present_key_skips_handler :
    luf_fpush_si metaState (some "a") 5
      = Outcome.next { metaState with
          tables := [{ entries := [(Value.string "a", Value.integer 5)], metatable := some 1 },
                     { entries := [(Value.string "__newindex", Value.function 9)],
                       metatable := none }] } := by
  decide

end Cluf
